import Mathlib

/-!
Shallow embedding of the movie-ratings dashboard data pipeline (`src/app.py`):
the sidebar filter state with its defaults and reset action, the chained row
filter, and the four aggregation views (genre value counts, per-genre and
per-year mean/count with a minimum-support threshold, and the two top-5 movie
rankings).  Ratings are embedded as rationals so group means are exact, and
the pandas/python library operations the script delegates to (`unique`,
`str.split`, `groupby(...).agg`, `value_counts`, `sort_values`, `isin`
masking) are modelled by executable list functions.
-/

namespace MovieRatings

/-- One row of `data/movie_ratings.csv`: a single (user, movie) rating event,
with the columns `app.py` reads. -/
structure Rating where
  user_id : Nat
  age : Int
  gender : String
  occupation : String
  title : String
  genres : String
  year : Int
  rating : ℚ
deriving DecidableEq, Repr

/-- Helper for `pd_unique`: keeps the first occurrence of each value, carrying
the list of values already seen. -/
def uniqueAux [DecidableEq α] (seen : List α) : List α → List α
  | [] => []
  | a :: as => if a ∈ seen then uniqueAux seen as else a :: uniqueAux (a :: seen) as

/-- Models `pandas.Series.unique()`: the distinct values of a column in order
of first appearance. -/
def pd_unique [DecidableEq α] (l : List α) : List α := uniqueAux [] l

/-- Models Python `str.split('|')` on the character list of a string: the
result is always non-empty, and the empty string yields `[[]]`. -/
def splitTags : List Char → List (List Char)
  | [] => [[]]
  | c :: cs =>
    if c = '|' then [] :: splitTags cs
    else
      match splitTags cs with
      | [] => [[c]]
      | t :: ts => (c :: t) :: ts

/-- Models `.str.split('|')` applied to one `genres` field. -/
def split_pipe (s : String) : List String := (splitTags s.toList).map String.mk

/-- Boolean lexicographic less-or-equal on character lists: the ordering
pandas uses for string group keys. -/
def lexLe : List Char → List Char → Bool
  | [], _ => true
  | _ :: _, [] => false
  | a :: as, b :: bs => if a < b then true else if b < a then false else lexLe as bs

/-- Lexicographic less-or-equal on strings. -/
def strLeB (s t : String) : Bool := lexLe s.toList t.toList

/-- Boolean less-or-equal on integers (used for release-year group keys). -/
def intLeB (a b : Int) : Bool := a ≤ b

/-- The ordering proposition associated with a boolean comparison. -/
def relOf (leB : K → K → Bool) (a b : K) : Prop := leB a b = true

instance (leB : K → K → Bool) : DecidableRel (relOf leB) := fun a b =>
  inferInstanceAs (Decidable (leB a b = true))

/-- One row of a grouped-aggregate table, as produced by
`groupby(key).agg(mean_rating=('rating','mean'), count=('rating','count')).reset_index()`. -/
structure AggRow (K : Type) where
  key : K
  mean_rating : ℚ
  count : Nat
deriving DecidableEq, Repr

/-- Models a pandas `groupby(key).agg(mean, count).reset_index()`: one row per
distinct key, keys sorted ascending (pandas `groupby` sorts group keys by
default), each row holding the arithmetic mean and the count of the ratings
that carry that key. -/
def group_agg [DecidableEq K] (leB : K → K → Bool) (pairs : List (K × ℚ)) : List (AggRow K) :=
  (List.insertionSort (relOf leB) (pd_unique (pairs.map Prod.fst))).map fun k =>
    let vals := (pairs.filter fun p => p.1 = k).map Prod.snd
    { key := k, mean_rating := vals.sum / (vals.length : ℚ), count := vals.length }

/-- Count-descending comparison used by `value_counts`. -/
def cntGe (x y : α × Nat) : Prop := y.2 ≤ x.2

instance : DecidableRel (@cntGe α) := fun x y => inferInstanceAs (Decidable (y.2 ≤ x.2))

/-- Models `Series.value_counts()`: the number of occurrences of each distinct
value, sorted by count descending. -/
def value_counts [DecidableEq α] (l : List α) : List (α × Nat) :=
  List.insertionSort cntGe ((pd_unique l).map fun v => (v, l.count v))

/-- The sidebar filter state: the `st.session_state` keys `age_range`,
`occupations` and `genders` (lines 28–33 of `app.py`). -/
structure FilterSelection where
  age_range : Int × Int
  occupations : List String
  genders : List String
deriving DecidableEq, Repr

/-- Models `unique_ages = sorted(df['age'].unique())` (line 23). -/
def unique_ages (df : List Rating) : List Int :=
  List.insertionSort (relOf intLeB) (pd_unique (df.map Rating.age))

/-- Models `default_age_range = (int(min(unique_ages)), int(max(unique_ages)))`
(line 24).  The `getD 0` stands for the `ValueError` Python's `min`/`max`
raise on an empty dataset, a state the dashboard never reaches. -/
def default_age_range (df : List Rating) : Int × Int :=
  ((unique_ages df).min?.getD 0, (unique_ages df).max?.getD 0)

/-- Models `default_occupations = list(df['occupation'].unique())` (line 25). -/
def default_occupations (df : List Rating) : List String :=
  pd_unique (df.map Rating.occupation)

/-- Models `default_genders = list(df['gender'].unique())` (line 26). -/
def default_genders (df : List Rating) : List String :=
  pd_unique (df.map Rating.gender)

/-- The selection a fresh session starts from (lines 28–33). -/
def default_selection (df : List Rating) : FilterSelection :=
  { age_range := default_age_range df
    occupations := default_occupations df
    genders := default_genders df }

/-- Models `clear_filters` (lines 35–38): the reset button writes the three
defaults back into the session state, discarding the prior selection. -/
def clear_filters (df : List Rating) (_prior : FilterSelection) : FilterSelection :=
  default_selection df

/-- Models the occupations multiselect (lines 49–54): whatever list the widget
returns — possibly empty — becomes the new `occupations` selection; `app.py`
performs no validation on it. -/
def set_occupations (sel : FilterSelection) (occs : List String) : FilterSelection :=
  { sel with occupations := occs }

/-- Decides whether one record passes all three sidebar predicates; the shape
matches the composition of the three masks of lines 63–65. -/
def passes (sel : FilterSelection) (r : Rating) : Bool :=
  decide (r.gender ∈ sel.genders) &&
    (decide (r.occupation ∈ sel.occupations) &&
      (decide (sel.age_range.1 ≤ r.age) && decide (r.age ≤ sel.age_range.2)))

/-- Models lines 63–65 of `app.py`: the boolean age-range mask followed by the
`isin` filters on occupation and gender. -/
def filtered_df (df : List Rating) (sel : FilterSelection) : List Rating :=
  ((df.filter fun r =>
        decide (sel.age_range.1 ≤ r.age) && decide (r.age ≤ sel.age_range.2)).filter
      fun r => decide (r.occupation ∈ sel.occupations)).filter
    fun r => decide (r.gender ∈ sel.genders)

/-- Outcome of rendering one dashboard section: either a warning message
(`st.warning`) or the tabular payload handed to the chart or table widget. -/
inductive ViewResult (α : Type) where
  | noData (msg : String) : ViewResult α
  | output (payload : α) : ViewResult α
deriving DecidableEq, Repr

/-- True when a section rendered a warning instead of a payload. -/
def ViewResult.isNoData : ViewResult α → Bool
  | .noData _ => true
  | .output _ => false

/-- Models line 82: `filtered_df['genres'].str.split('|').explode().value_counts()`. -/
def genre_counts (fdf : List Rating) : List (String × Nat) :=
  value_counts (fdf.flatMap fun r => split_pipe r.genres)

/-- Models lines 79–91 (view 1, `GenreBreakdown`): the two `st.warning`
branches, otherwise the bar-chart payload. -/
def genre_breakdown_view (fdf : List Rating) : ViewResult (List (String × Nat)) :=
  if fdf.isEmpty then ViewResult.noData "No data available for the selected filters."
  else if (genre_counts fdf).isEmpty then
    ViewResult.noData "No genre data available for the selected filters."
  else ViewResult.output (genre_counts fdf)

/-- Models lines 96–97: explode each record into one `(genre, rating)` pair
per genre tag. -/
def genre_pairs (fdf : List Rating) : List (String × ℚ) :=
  fdf.flatMap fun r => (split_pipe r.genres).map fun g => (g, r.rating)

/-- Models line 98: `genre_grouped` before the threshold of line 99 is applied. -/
def genre_grouped_all (fdf : List Rating) : List (AggRow String) :=
  group_agg strLeB (genre_pairs fdf)

/-- Models line 99: keep only genres with at least 50 contributing ratings. -/
def genre_grouped (fdf : List Rating) : List (AggRow String) :=
  (genre_grouped_all fdf).filter fun row => 50 ≤ row.count

/-- Mean-rating-descending comparison used by `sort_values('mean_rating', ascending=False)`. -/
def meanGe (x y : AggRow K) : Prop := y.mean_rating ≤ x.mean_rating

instance : DecidableRel (@meanGe K) := fun x y =>
  inferInstanceAs (Decidable (y.mean_rating ≤ x.mean_rating))

/-- Models `sort_values('mean_rating', ascending=False)`.  The program uses
the pandas default `kind='quicksort'` (numpy introsort), which guarantees a
mean-descending order but no particular order among rows of equal mean; the
insertion sort used here therefore fixes one arbitrary deterministic tie
order, and no theorem in this file depends on which tie order it is. -/
def sort_values_desc (l : List (AggRow K)) : List (AggRow K) :=
  List.insertionSort meanGe l

/-- Models lines 100–106 (view 2, `GenreSatisfaction`): the chart payload is
rendered unconditionally, sorted by mean rating descending for presentation. -/
def genre_satisfaction_view (fdf : List Rating) : ViewResult (List (AggRow String)) :=
  ViewResult.output (sort_values_desc (genre_grouped fdf))

/-- Models line 110: `year_grouped` before the threshold of line 111 is applied. -/
def year_grouped_all (fdf : List Rating) : List (AggRow Int) :=
  group_agg intLeB (fdf.map fun r => (r.year, r.rating))

/-- Models line 111: keep only release years with at least 50 contributing ratings. -/
def year_grouped (fdf : List Rating) : List (AggRow Int) :=
  (year_grouped_all fdf).filter fun row => 50 ≤ row.count

/-- Models lines 112–118 (view 3, `YearlyTrend`): the trend-line payload is
rendered unconditionally, in the row order of `year_grouped`. -/
def yearly_trend_view (fdf : List Rating) : ViewResult (List (AggRow Int)) :=
  ViewResult.output (year_grouped fdf)

/-- Models line 122: the per-movie-title mean/count table. -/
def movie_grouped (fdf : List Rating) : List (AggRow String) :=
  group_agg strLeB (fdf.map fun r => (r.title, r.rating))

/-- Models line 123: movies with at least 50 ratings, sorted by mean rating
descending, truncated to the top 5. -/
def top5_50 (fdf : List Rating) : List (AggRow String) :=
  (sort_values_desc ((movie_grouped fdf).filter fun row => 50 ≤ row.count)).take 5

/-- Models line 124: movies with at least 150 ratings, sorted by mean rating
descending, truncated to the top 5. -/
def top5_150 (fdf : List Rating) : List (AggRow String) :=
  (sort_values_desc ((movie_grouped fdf).filter fun row => 150 ≤ row.count)).take 5

/-- Models lines 120–128 (view 4, `TopRatedMovies`): both rankings are
rendered unconditionally as tables. -/
def top_rated_view (fdf : List Rating) :
    ViewResult (List (AggRow String) × List (AggRow String)) :=
  ViewResult.output (top5_50 fdf, top5_150 fdf)

/-! ## Library lemmas about the pandas model -/

theorem mem_uniqueAux [DecidableEq α] (seen l : List α) (x : α) :
    x ∈ uniqueAux seen l ↔ x ∈ l ∧ x ∉ seen := by
  induction l generalizing seen with
  | nil => simp [uniqueAux]
  | cons a as ih =>
    by_cases ha : a ∈ seen
    · rw [uniqueAux, if_pos ha, ih]
      simp only [List.mem_cons]
      constructor
      · rintro ⟨h1, h2⟩
        exact ⟨Or.inr h1, h2⟩
      · rintro ⟨h1 | h1, h2⟩
        · exact absurd (h1 ▸ ha) h2
        · exact ⟨h1, h2⟩
    · rw [uniqueAux, if_neg ha]
      simp only [List.mem_cons, ih, not_or]
      constructor
      · rintro (rfl | ⟨h1, h2⟩)
        · exact ⟨Or.inl rfl, ha⟩
        · exact ⟨Or.inr h1, h2.2⟩
      · rintro ⟨rfl | h1, h2⟩
        · exact Or.inl rfl
        · by_cases hxa : x = a
          · exact Or.inl hxa
          · exact Or.inr ⟨h1, hxa, h2⟩

theorem nodup_uniqueAux [DecidableEq α] (seen l : List α) : (uniqueAux seen l).Nodup := by
  induction l generalizing seen with
  | nil => simp [uniqueAux]
  | cons a as ih =>
    by_cases ha : a ∈ seen
    · rw [uniqueAux, if_pos ha]
      exact ih seen
    · rw [uniqueAux, if_neg ha]
      refine List.nodup_cons.mpr ⟨fun hmem => ?_, ih _⟩
      exact ((mem_uniqueAux _ _ _).mp hmem).2 (List.mem_cons_self a seen)

theorem uniqueAux_sublist [DecidableEq α] (seen l : List α) : (uniqueAux seen l).Sublist l := by
  induction l generalizing seen with
  | nil => simp [uniqueAux]
  | cons a as ih =>
    by_cases ha : a ∈ seen
    · rw [uniqueAux, if_pos ha]
      exact (ih seen).trans (List.sublist_cons_self a as)
    · rw [uniqueAux, if_neg ha]
      exact (ih (a :: seen)).cons₂ a

theorem mem_pd_unique [DecidableEq α] (l : List α) (x : α) : x ∈ pd_unique l ↔ x ∈ l := by
  rw [pd_unique, mem_uniqueAux]
  simp

theorem pd_unique_nodup [DecidableEq α] (l : List α) : (pd_unique l).Nodup :=
  nodup_uniqueAux [] l

theorem pd_unique_sublist [DecidableEq α] (l : List α) : (pd_unique l).Sublist l :=
  uniqueAux_sublist [] l

theorem splitTags_ne_nil (cs : List Char) : splitTags cs ≠ [] := by
  cases cs with
  | nil => simp [splitTags]
  | cons c cs =>
    rw [splitTags]
    split
    · exact List.cons_ne_nil _ _
    · split
      · exact List.cons_ne_nil _ _
      · exact List.cons_ne_nil _ _

theorem one_le_length_split_pipe (s : String) : 1 ≤ (split_pipe s).length := by
  rw [split_pipe, List.length_map]
  exact List.length_pos.mpr (splitTags_ne_nil _)

theorem lexLe_total : ∀ as bs : List Char, lexLe as bs = true ∨ lexLe bs as = true
  | [], _ => Or.inl rfl
  | _ :: _, [] => Or.inr rfl
  | a :: as, b :: bs => by
    rcases lt_trichotomy a b with h | h | h
    · left
      simp [lexLe, h]
    · subst h
      rcases lexLe_total as bs with ih | ih
      · left
        simp [lexLe, ih]
      · right
        simp [lexLe, ih]
    · right
      simp [lexLe, h]

theorem lexLe_trans :
    ∀ as bs cs : List Char, lexLe as bs = true → lexLe bs cs = true → lexLe as cs = true
  | [], _, _, _, _ => rfl
  | _ :: _, [], _, h1, _ => by simp [lexLe] at h1
  | _ :: _, _ :: _, [], _, h2 => by simp [lexLe] at h2
  | a :: as, b :: bs, c :: cs, h1, h2 => by
    by_cases hab : a < b
    · by_cases hbc : b < c
      · simp [lexLe, lt_trans hab hbc]
      · have hcb : ¬ c < b := fun hcb => by simp [lexLe, hbc, hcb] at h2
        have hbceq : b = c := le_antisymm (not_lt.mp hcb) (not_lt.mp hbc)
        subst hbceq
        simp [lexLe, hab]
    · by_cases hba : b < a
      · simp [lexLe, hab, hba] at h1
      · have habeq : a = b := le_antisymm (not_lt.mp hba) (not_lt.mp hab)
        subst habeq
        have h1' : lexLe as bs = true := by simpa [lexLe, lt_irrefl] using h1
        by_cases hac : a < c
        · simp [lexLe, hac]
        · by_cases hca : c < a
          · simp [lexLe, hac, hca] at h2
          · have haceq : a = c := le_antisymm (not_lt.mp hca) (not_lt.mp hac)
            subst haceq
            have h2' : lexLe bs cs = true := by simpa [lexLe, lt_irrefl] using h2
            simp [lexLe, lt_irrefl, lexLe_trans as bs cs h1' h2']

instance : IsTotal String (relOf strLeB) :=
  ⟨fun s t => lexLe_total s.toList t.toList⟩

instance : IsTrans String (relOf strLeB) :=
  ⟨fun s t u h1 h2 => lexLe_trans s.toList t.toList u.toList h1 h2⟩

theorem relOf_intLeB_iff (a b : Int) : relOf intLeB a b ↔ a ≤ b := by
  simp [relOf, intLeB]

instance : IsTotal Int (relOf intLeB) :=
  ⟨fun a b => by
    rw [relOf_intLeB_iff, relOf_intLeB_iff]
    exact le_total a b⟩

instance : IsTrans Int (relOf intLeB) :=
  ⟨fun a b c h1 h2 => by
    rw [relOf_intLeB_iff] at *
    exact le_trans h1 h2⟩

/-! ## The filter as a single predicate -/

theorem filtered_df_eq_filter (df : List Rating) (sel : FilterSelection) :
    filtered_df df sel = df.filter (passes sel) := by
  simp only [filtered_df, passes, List.filter_filter]
  rfl

theorem passes_iff (sel : FilterSelection) (r : Rating) :
    passes sel r = true ↔
      (sel.age_range.1 ≤ r.age ∧ r.age ≤ sel.age_range.2) ∧
        r.occupation ∈ sel.occupations ∧ r.gender ∈ sel.genders := by
  simp only [passes, Bool.and_eq_true, decide_eq_true_eq]
  tauto

theorem mem_filtered_df (df : List Rating) (sel : FilterSelection) (r : Rating) :
    r ∈ filtered_df df sel ↔
      r ∈ df ∧ (sel.age_range.1 ≤ r.age ∧ r.age ≤ sel.age_range.2) ∧
        r.occupation ∈ sel.occupations ∧ r.gender ∈ sel.genders := by
  rw [filtered_df_eq_filter, List.mem_filter, passes_iff]

theorem filtered_df_sublist (df : List Rating) (sel : FilterSelection) :
    (filtered_df df sel).Sublist df := by
  rw [filtered_df_eq_filter]
  exact List.filter_sublist df

/-- Rewriting every record's `genres` field commutes with the filter: the
genres column never influences inclusion. -/
theorem filtered_df_map_genres (df : List Rating) (sel : FilterSelection)
    (gf : Rating → String) :
    filtered_df (df.map fun r => { r with genres := gf r }) sel =
      (filtered_df df sel).map fun r => { r with genres := gf r } := by
  rw [filtered_df_eq_filter, filtered_df_eq_filter, List.filter_map]
  rfl

/-! ## Counting lemmas -/

theorem sum_map_count_pd_unique [DecidableEq α] (l : List α) :
    ((pd_unique l).map fun k => l.count k).sum = l.length := by
  rw [← List.sum_toFinset _ (pd_unique_nodup l)]
  have hts : (pd_unique l).toFinset = l.toFinset := by
    ext x
    simp [List.mem_toFinset, mem_pd_unique]
  rw [hts]
  simp

theorem sum_counts_value_counts [DecidableEq α] (l : List α) :
    ((value_counts l).map Prod.snd).sum = l.length := by
  calc ((value_counts l).map Prod.snd).sum
      = (((pd_unique l).map fun v => (v, l.count v)).map Prod.snd).sum :=
        ((List.perm_insertionSort cntGe _).map Prod.snd).sum_eq
    _ = ((pd_unique l).map fun k => l.count k).sum := by rw [List.map_map]; rfl
    _ = l.length := sum_map_count_pd_unique l

theorem length_le_sum_of_one_le (ns : List Nat) (h : ∀ x ∈ ns, 1 ≤ x) :
    ns.length ≤ ns.sum := by
  induction ns with
  | nil => simp
  | cons n ns ih =>
    have h1 := h n (List.mem_cons_self n ns)
    have h2 := ih fun x hx => h x (List.mem_cons_of_mem _ hx)
    simp only [List.length_cons, List.sum_cons]
    omega

theorem sum_eq_length_iff (ns : List Nat) (h : ∀ x ∈ ns, 1 ≤ x) :
    ns.sum = ns.length ↔ ∀ x ∈ ns, x = 1 := by
  induction ns with
  | nil => simp
  | cons n ns ih =>
    have h1 := h n (List.mem_cons_self n ns)
    have hrest := fun x hx => h x (List.mem_cons_of_mem n hx)
    have hlen := length_le_sum_of_one_le ns hrest
    have hiff := ih hrest
    simp only [List.sum_cons, List.length_cons, List.mem_cons, forall_eq_or_imp]
    constructor
    · intro he
      have hn : n = 1 := by omega
      have hs : ns.sum = ns.length := by omega
      exact ⟨hn, hiff.mp hs⟩
    · rintro ⟨hn, hall⟩
      have hs : ns.sum = ns.length := hiff.mpr hall
      omega

/-! ## Minimum and maximum of a non-empty integer list -/

theorem min?_int_spec (l : List Int) (hne : l ≠ []) :
    ∃ m, l.min? = some m ∧ m ∈ l ∧ ∀ x ∈ l, m ≤ x := by
  haveI : Std.Antisymm (fun a b : Int => a ≤ b) := ⟨fun h1 h2 => le_antisymm h1 h2⟩
  obtain ⟨a, as, rfl⟩ := List.exists_cons_of_ne_nil hne
  refine ⟨(a :: as).min?.getD 0, ?_⟩
  have hsome : (a :: as).min? = some (as.foldl min a) := rfl
  have hm := (List.min?_eq_some_iff (fun a : Int => le_refl a) (fun a b => min_choice a b)
    (fun a b c => le_min_iff)).mp hsome
  rw [hsome]
  exact ⟨rfl, hm.1, hm.2⟩

theorem max?_int_spec (l : List Int) (hne : l ≠ []) :
    ∃ m, l.max? = some m ∧ m ∈ l ∧ ∀ x ∈ l, x ≤ m := by
  haveI : Std.Antisymm (fun a b : Int => a ≤ b) := ⟨fun h1 h2 => le_antisymm h1 h2⟩
  obtain ⟨a, as, rfl⟩ := List.exists_cons_of_ne_nil hne
  refine ⟨(a :: as).max?.getD 0, ?_⟩
  have hsome : (a :: as).max? = some (as.foldl max a) := rfl
  have hm := (List.max?_eq_some_iff (fun a : Int => le_refl a) (fun a b => max_choice a b)
    (fun a b c => max_le_iff)).mp hsome
  rw [hsome]
  exact ⟨rfl, hm.1, hm.2⟩

/-! ## Grouped tables: key order and thresholds -/

theorem group_agg_pairwise [DecidableEq K] (leB : K → K → Bool)
    [IsTotal K (relOf leB)] [IsTrans K (relOf leB)] (pairs : List (K × ℚ)) :
    List.Pairwise (fun a b : AggRow K => relOf leB a.key b.key ∧ a.key ≠ b.key)
      (group_agg leB pairs) := by
  rw [group_agg, List.pairwise_map]
  have hsorted := List.sorted_insertionSort (relOf leB) (pd_unique (pairs.map Prod.fst))
  have hnodup : (List.insertionSort (relOf leB) (pd_unique (pairs.map Prod.fst))).Nodup :=
    (List.perm_insertionSort _ _).nodup_iff.mpr (pd_unique_nodup _)
  exact hsorted.and hnodup

/-! ## The claims -/

/-- C1: a record appears in the filtered view iff it lies in the dataset, its
age is within the inclusive bounds, its occupation is among the selected
occupations and its gender among the selected genders (logical AND of the
three predicates); consequently the view is no longer than the dataset, and
rewriting the genres column arbitrarily never changes which records are
included. -/
theorem claim1_filter_conjunction (df : List Rating) (sel : FilterSelection) :
    (∀ r : Rating, r ∈ filtered_df df sel ↔
        r ∈ df ∧ (sel.age_range.1 ≤ r.age ∧ r.age ≤ sel.age_range.2) ∧
          r.occupation ∈ sel.occupations ∧ r.gender ∈ sel.genders)
    ∧ (filtered_df df sel).length ≤ df.length
    ∧ ∀ gf : Rating → String,
        filtered_df (df.map fun r => { r with genres := gf r }) sel =
          (filtered_df df sel).map fun r => { r with genres := gf r } :=
  ⟨mem_filtered_df df sel, (filtered_df_sublist df sel).length_le,
    filtered_df_map_genres df sel⟩

/-- C10: the filtered view is a subsequence of the dataset — filtering keeps
the original relative order and never duplicates or reorders records. -/
theorem claim10_filtered_subsequence (df : List Rating) (sel : FilterSelection) :
    (filtered_df df sel).Sublist df :=
  filtered_df_sublist df sel

/-- C2: every genre group and every year group that the thresholded views
emit has at least 50 contributing ratings, and each emitted group is one of
the groups the same computation produces with the threshold removed. -/
theorem claim2_min_support (fdf : List Rating) :
    (∀ row ∈ genre_grouped fdf, 50 ≤ row.count)
    ∧ (∀ row ∈ genre_grouped fdf, row ∈ genre_grouped_all fdf)
    ∧ (∀ row ∈ year_grouped fdf, 50 ≤ row.count)
    ∧ (∀ row ∈ year_grouped fdf, row ∈ year_grouped_all fdf) := by
  refine ⟨fun row hrow => ?_, fun row hrow => ?_, fun row hrow => ?_, fun row hrow => ?_⟩
  · exact of_decide_eq_true (List.mem_filter.mp hrow).2
  · exact (List.mem_filter.mp hrow).1
  · exact of_decide_eq_true (List.mem_filter.mp hrow).2
  · exact (List.mem_filter.mp hrow).1

/-- C6: the top-5 list at the 150-rating threshold is never longer than the
top-5 list at the 50-rating threshold over the same view, and both lists hold
at most 5 movies. -/
theorem claim6_threshold_monotone (fdf : List Rating) :
    (top5_150 fdf).length ≤ (top5_50 fdf).length
    ∧ (top5_50 fdf).length ≤ 5 ∧ (top5_150 fdf).length ≤ 5 := by
  have hmono :
      ((movie_grouped fdf).filter fun row => decide (150 ≤ row.count)).length ≤
        ((movie_grouped fdf).filter fun row => decide (50 ≤ row.count)).length :=
    (List.monotone_filter_right _ fun a h =>
      decide_eq_true (by have := of_decide_eq_true h; omega)).length_le
  refine ⟨?_, ?_, ?_⟩
  · rw [top5_150, top5_50, List.length_take, List.length_take, sort_values_desc,
      sort_values_desc, List.length_insertionSort, List.length_insertionSort]
    exact inf_le_inf_left 5 hmono
  · rw [top5_50, List.length_take]
    exact inf_le_left
  · rw [top5_150, List.length_take]
    exact inf_le_left

/-- C7: the yearly-trend table is ordered by release year strictly ascending
(chronological order). -/
theorem claim7_year_ascending (fdf : List Rating) :
    List.Pairwise (fun a b : AggRow Int => a.key < b.key) (year_grouped fdf) := by
  have hall := group_agg_pairwise intLeB (fdf.map fun r => (r.year, r.rating))
  have hlt : List.Pairwise (fun a b : AggRow Int => a.key < b.key) (year_grouped_all fdf) := by
    rw [year_grouped_all]
    exact hall.imp fun h => lt_of_le_of_ne ((relOf_intLeB_iff _ _).mp h.1) h.2
  exact List.Pairwise.sublist (List.filter_sublist _) hlt

/-- C5: the genre-breakdown counts sum to at least the number of records in
the filtered view, with equality exactly when every record's genres field
splits into a single tag. -/
theorem claim5_genre_count_sum (fdf : List Rating) :
    fdf.length ≤ ((genre_counts fdf).map Prod.snd).sum
    ∧ (((genre_counts fdf).map Prod.snd).sum = fdf.length ↔
        ∀ r ∈ fdf, (split_pipe r.genres).length = 1) := by
  have hsum : ((genre_counts fdf).map Prod.snd).sum =
      (fdf.flatMap fun r => split_pipe r.genres).length :=
    sum_counts_value_counts _
  have hlen : (fdf.flatMap fun r => split_pipe r.genres).length =
      (fdf.map fun r => (split_pipe r.genres).length).sum := by
    rw [List.length_flatMap]
    rfl
  have hone : ∀ x ∈ fdf.map fun r => (split_pipe r.genres).length, 1 ≤ x := by
    intro x hx
    obtain ⟨r, _, rfl⟩ := List.mem_map.mp hx
    exact one_le_length_split_pipe _
  have hlength : (fdf.map fun r => (split_pipe r.genres).length).length = fdf.length :=
    List.length_map _ _
  constructor
  · rw [hsum, hlen, ← hlength]
    exact length_le_sum_of_one_le _ hone
  · rw [hsum, hlen, show fdf.length = (fdf.map fun r => (split_pipe r.genres).length).length
      from hlength.symm, sum_eq_length_iff _ hone]
    constructor
    · intro h r hr
      exact h _ (List.mem_map_of_mem _ hr)
    · intro h x hx
      obtain ⟨r, hr, rfl⟩ := List.mem_map.mp hx
      exact h r hr

/-! ## Concrete data, from the worked scenario of the specification -/

/-- Record A of the worked scenario: a 25-year-old male engineer rating the
two-genre movie "A" with a 4. -/
def recA : Rating :=
  { user_id := 1, age := 25, gender := "M", occupation := "engineer", title := "A",
    genres := "Action|Comedy", year := 2000, rating := 4 }

/-- Record B of the worked scenario: a 40-year-old female teacher rating the
one-genre movie "B" with a 2. -/
def recB : Rating :=
  { user_id := 2, age := 40, gender := "F", occupation := "teacher", title := "B",
    genres := "Comedy", year := 2000, rating := 2 }

/-- The two-record example dataset. -/
def exampleDf : List Rating := [recA, recB]

/-- The example dataset with the records swapped, so that the occupations
first appear in non-lexicographic order (teacher before engineer). -/
def reorderedDf : List Rating := [recB, recA]

/-- A selection whose age window matches no record of `exampleDf`. -/
def noMatchSel : FilterSelection :=
  { age_range := (100, 200), occupations := ["engineer", "teacher"], genders := ["M", "F"] }

/-- A valid prior selection over the example dataset. -/
def priorSel : FilterSelection :=
  { age_range := (18, 60), occupations := ["engineer", "teacher"], genders := ["M", "F"] }

/-- C3 counterexample: on a selection matching no records the filter indeed
returns the empty view, but the genre-satisfaction, yearly-trend and
top-rated sections do not report a "no data" outcome — they emit ordinary
(empty-table) outputs, so three of the four downstream views lack the
claimed empty-case message. -/
theorem claim3_counterexample :
    filtered_df exampleDf noMatchSel = []
    ∧ (genre_satisfaction_view (filtered_df exampleDf noMatchSel)).isNoData = false
    ∧ (yearly_trend_view (filtered_df exampleDf noMatchSel)).isNoData = false
    ∧ (top_rated_view (filtered_df exampleDf noMatchSel)).isNoData = false := by
  decide

/-- C3 (amended): a selection matching no records yields the empty view (no
error); the genre-breakdown section reports the "no data" warning, while the
genre-satisfaction, yearly-trend and top-rated sections render unconditional
outputs whose tables are empty. -/
theorem claim3_amended (df : List Rating) (sel : FilterSelection)
    (h : filtered_df df sel = []) :
    genre_breakdown_view (filtered_df df sel) =
        ViewResult.noData "No data available for the selected filters."
    ∧ genre_satisfaction_view (filtered_df df sel) = ViewResult.output []
    ∧ yearly_trend_view (filtered_df df sel) = ViewResult.output []
    ∧ top_rated_view (filtered_df df sel) = ViewResult.output ([], []) := by
  rw [h]
  exact ⟨rfl, rfl, rfl, rfl⟩

/-- C3 witness: the amended statement applied to the concrete empty-match
selection over the example dataset. -/
theorem claim3_amended_witness :
    genre_breakdown_view (filtered_df exampleDf noMatchSel) =
      ViewResult.noData "No data available for the selected filters." :=
  (claim3_amended exampleDf noMatchSel (by decide)).1

/-- C4 counterexample: updating the occupations with the empty list is not
rejected — the selection does change (it is not left unchanged) and the
empty set is installed. -/
theorem claim4_counterexample :
    set_occupations priorSel [] ≠ priorSel
    ∧ (set_occupations priorSel []).occupations = [] := by
  decide

/-- C4 (amended): the dashboard performs no validation on filter updates:
the multiselect's value — even the empty list — replaces the prior
occupation set wholesale (no `ValidationError` exists in the program), the
other fields are untouched, and the filtered view under an empty occupation
set is empty. -/
theorem claim4_amended (df : List Rating) (sel : FilterSelection) :
    (set_occupations sel []).occupations = []
    ∧ (set_occupations sel []).age_range = sel.age_range
    ∧ (set_occupations sel []).genders = sel.genders
    ∧ filtered_df df (set_occupations sel []) = [] := by
  refine ⟨rfl, rfl, rfl, ?_⟩
  rw [filtered_df_eq_filter]
  rw [List.filter_eq_nil_iff]
  intro r _
  simp [passes, set_occupations]

/-- C9 counterexample: on a dataset whose occupations first appear in the
order teacher, engineer, the default occupation list keeps that appearance
order, which is not the lexicographic order the claim requires. -/
theorem claim9_counterexample :
    default_occupations reorderedDf = ["teacher", "engineer"]
    ∧ ¬ List.Sorted (relOf strLeB) (default_occupations reorderedDf)
    ∧ List.insertionSort (relOf strLeB) (default_occupations reorderedDf) ≠
        default_occupations reorderedDf := by
  decide

/-- C9 (amended): the reset action restores exactly the defaults computed
from the dataset; the default age bounds are the minimum and maximum
observed ages, and the default occupation and gender lists contain each
observed value exactly once, in order of first appearance (a deduplicated
subsequence of the column) — not in lexicographic order. -/
theorem claim9_amended (df : List Rating) (prior : FilterSelection) (h : df ≠ []) :
    clear_filters df prior = default_selection df
    ∧ (∀ x, x ∈ (default_selection df).occupations ↔ x ∈ df.map Rating.occupation)
    ∧ (default_selection df).occupations.Nodup
    ∧ ((default_selection df).occupations.Sublist (df.map Rating.occupation))
    ∧ (∀ x, x ∈ (default_selection df).genders ↔ x ∈ df.map Rating.gender)
    ∧ (default_selection df).genders.Nodup
    ∧ ((default_selection df).genders.Sublist (df.map Rating.gender))
    ∧ (∀ r ∈ df, (default_selection df).age_range.1 ≤ r.age
        ∧ r.age ≤ (default_selection df).age_range.2)
    ∧ (∃ r ∈ df, r.age = (default_selection df).age_range.1)
    ∧ (∃ r ∈ df, r.age = (default_selection df).age_range.2) := by
  have hmapne : df.map Rating.age ≠ [] := by
    intro h0
    exact h (List.map_eq_nil_iff.mp h0)
  have hpune : pd_unique (df.map Rating.age) ≠ [] := by
    intro h0
    obtain ⟨a, as, heq⟩ := List.exists_cons_of_ne_nil hmapne
    have hmem : a ∈ pd_unique (df.map Rating.age) :=
      (mem_pd_unique _ _).mpr (heq ▸ List.mem_cons_self a as)
    rw [h0] at hmem
    exact List.not_mem_nil a hmem
  have huane : unique_ages df ≠ [] := by
    intro h0
    have hlen := congrArg List.length h0
    rw [unique_ages, List.length_insertionSort] at hlen
    exact hpune (List.length_eq_zero.mp hlen)
  have humem : ∀ x, x ∈ unique_ages df ↔ x ∈ df.map Rating.age := by
    intro x
    rw [unique_ages, (List.perm_insertionSort _ _).mem_iff, mem_pd_unique]
  obtain ⟨mn, hmn, hmnmem, hmnle⟩ := min?_int_spec (unique_ages df) huane
  obtain ⟨mx, hmx, hmxmem, hmxge⟩ := max?_int_spec (unique_ages df) huane
  have hfst : (default_selection df).age_range.1 = mn := by
    simp [default_selection, default_age_range, hmn]
  have hsnd : (default_selection df).age_range.2 = mx := by
    simp [default_selection, default_age_range, hmx]
  refine ⟨rfl, ?_, pd_unique_nodup _, pd_unique_sublist _, ?_, pd_unique_nodup _,
    pd_unique_sublist _, ?_, ?_, ?_⟩
  · intro x
    exact mem_pd_unique _ x
  · intro x
    exact mem_pd_unique _ x
  · intro r hr
    have hmem : r.age ∈ unique_ages df :=
      (humem _).mpr (List.mem_map_of_mem Rating.age hr)
    rw [hfst, hsnd]
    exact ⟨hmnle r.age hmem, hmxge r.age hmem⟩
  · obtain ⟨r, hr, hra⟩ := List.mem_map.mp ((humem mn).mp hmnmem)
    exact ⟨r, hr, by rw [hfst, hra]⟩
  · obtain ⟨r, hr, hra⟩ := List.mem_map.mp ((humem mx).mp hmxmem)
    exact ⟨r, hr, by rw [hsnd, hra]⟩

/-- C9 witness: the amended statement applied to the concrete reordered
example dataset. -/
theorem claim9_amended_witness :
    clear_filters reorderedDf priorSel = default_selection reorderedDf :=
  (claim9_amended reorderedDf priorSel (by decide)).1

end MovieRatings
